import Mathlib

/-!
Shallow embedding of the blog editor component
(src/components/editor/index.tsx) and proofs about its behavior.

The component holds an in-memory draft of a post, autosaves it on a
debounce timer, supports an explicit meta+S save shortcut, mediates a
streamed AI completion triggered by a "++" marker, and manages a list
of "slide" text blocks.
-/

namespace BlogTool

/-- JS template-literal rendering of a possibly-null string field:
`null` is rendered as the text "null", as in a JS template string. -/
def jsStr : Option String → String
  | some s => s
  | none => "null"

/-- The post record held in component state (`data` / `post`).
Nullable string columns become `Option String`; `slides` is the
serialized (JSON string) form of the slide list. -/
structure Draft where
  title : Option String
  description : Option String
  content : Option String
  slides : Option String
  published : Bool
  deriving DecidableEq

/-! ## Slide list operations (`updateSlides`, lines 179-194)

A JS array slot is `some s` for a string element and `none` for a hole
(reads as `undefined`).  JS element assignment `arr[i] = v` with
`i ≥ arr.length` extends the array with holes up to index `i`; with a
negative `i` it stores a non-index property, leaving the element
sequence (as seen by iteration, spread and JSON.stringify) unchanged.
`arr.splice(i, 1)` with negative `i` counts from the end of the array
(clamped at 0) and with `i ≥ arr.length` removes nothing. -/

abbrev Slot := Option String

/-- `arr[i] = v` on a copy of the array (the source copies via
`slides.slice()` before mutating). -/
def jsSet (l : List Slot) (i : Int) (v : String) : List Slot :=
  if i < 0 then l
  else
    let n := i.toNat
    if n < l.length then l.set n (some v)
    else l ++ List.replicate (n - l.length) none ++ [some v]

/-- The actual start index used by `splice(i, 1)`:
`max (len + i) 0` for negative `i`, `min i len` otherwise. -/
def spliceStart (len : Nat) (i : Int) : Nat :=
  if i < 0 then ((len : Int) + i).toNat else min i.toNat len

/-- `arr.splice(i, 1)` on a copy of the array. -/
def jsSpliceDel1 (l : List Slot) (i : Int) : List Slot :=
  let s := spliceStart l.length i
  l.take s ++ l.drop (s + 1)

/-- `updateSlides(action, index, value)`: the three slide operations
dispatched on the action string (source lines 179-194).  An unknown
action leaves the list unchanged (no matching switch case). -/
def updateSlides (slides : List Slot) (action : String) (index : Int) (value : String) :
    List Slot :=
  if action = "add" then slides ++ [some value]
  else if action = "update" then jsSet slides index value
  else if action = "delete" then jsSpliceDel1 slides index
  else slides

/-! ## Serialization of slides into the draft (lines 196-198) -/

/-- One character of `JSON.stringify` string escaping. -/
def jsonEscapeChar (c : Char) : String :=
  if c = '"' then "\\\""
  else if c = '\\' then "\\\\"
  else if c = '\n' then "\\n"
  else if c = '\t' then "\\t"
  else if c = '\r' then "\\r"
  else String.singleton c

/-- `JSON.stringify` escaping of a string body. -/
def jsonEscape (s : String) : String :=
  String.join (s.toList.map jsonEscapeChar)

/-- Serialization of one array slot: a hole is spread to `undefined`
by `[...slides]` and serialized by `JSON.stringify` as `null`. -/
def jsonSlot : Slot → String
  | some s => "\"" ++ jsonEscape s ++ "\""
  | none => "null"

/-- `JSON.stringify([...slides])`. -/
def jsonStringifySlides (l : List Slot) : String :=
  "[" ++ String.intercalate "," (l.map jsonSlot) ++ "]"

/-- The effect at lines 196-198:
`setData({ ...data, slides: JSON.stringify([...slides]) })`. -/
def syncSlidesToDraft (d : Draft) (slides : List Slot) : Draft :=
  { d with slides := some (jsonStringifySlides slides) }

/-- The component state relevant to the slide list: the in-memory
slide array and the draft holding its serialized form. -/
structure SlideEditorState where
  slides : List Slot
  data : Draft
  deriving DecidableEq

/-- One slide mutation followed by the serialization effect that runs
on every change of `slides`. -/
def slideMutationStep (st : SlideEditorState) (action : String) (index : Int) (value : String) :
    SlideEditorState :=
  let slides := updateSlides st.slides action index value
  ⟨slides, syncSlidesToDraft st.data slides⟩

/-! ## Debounced autosave (lines 35-49)

The effect receives the debounced draft and the persisted baseline
`post`; it returns early when title, description, content and slides
all equal the baseline, and otherwise issues `updatePost(debouncedData)`
with the full current draft. -/

/-- The autosave decision: `none` means no persistence call is issued;
`some d` means one call carrying the draft `d` is issued. -/
def autosaveCheck (debounced baseline : Draft) : Option Draft :=
  if debounced.title = baseline.title ∧ debounced.description = baseline.description ∧
      debounced.content = baseline.content ∧ debounced.slides = baseline.slides
  then none
  else some debounced

/-! ## meta+S save shortcut (lines 52-65) -/

/-- The keydown handler for the explicit save shortcut.  Returns
`some (preventDefault, savedDraft)` when it fires, `none` otherwise.
`debouncePending` mirrors the state of the debounce timer; the source
handler never consults it, which the model makes explicit by taking it
as an unused argument. -/
def onSaveShortcut (metaKey : Bool) (key : String) (_debouncePending : Bool) (d : Draft) :
    Option (Bool × Draft) :=
  if metaKey = true ∧ key = "s" then some (true, d) else none

/-- `document.addEventListener("keydown", onKeyDown)` on mount:
the listener registry gains the handler. -/
def mountSaveListener (ls : List String) : List String :=
  "save-keydown" :: ls

/-- The effect cleanup `document.removeEventListener("keydown", onKeyDown)`
on teardown: the same handler is removed from the registry. -/
def unmountSaveListener (ls : List String) : List String :=
  ls.erase "save-keydown"

/-! ## Editor document and the onUpdate handler (lines 67-96)

The document is modelled by its plain text (a character list) and the
cursor `selection.from`. -/

structure EditorSnapshot where
  doc : List Char
  cursor : Nat
  deriving DecidableEq

/-- `textBetween(a, b)`: the characters at positions `a ≤ p < b`. -/
def textBetween (doc : List Char) (a b : Nat) : List Char :=
  (doc.take b).drop a

/-- `deleteRange({ from: a, to: b })`. -/
def deleteRange (doc : List Char) (a b : Nat) : List Char :=
  doc.take a ++ doc.drop b

/-- The prompt built at lines 83-86 for the completion request. -/
def mkPrompt (title description : Option String) (docText : String) : String :=
  "Title: " ++ jsStr title ++ "\n Description: " ++ jsStr description ++ "\n\n " ++ docText

/-- Outcome of one `onUpdate` invocation: either the marker was
triggered (the document after deleting the marker, and the prompt of
the completion request started), or the ordinary branch ran and the
draft was updated from the document's markdown serialization. -/
inductive UpdateResult where
  | triggered (doc : List Char) (prompt : String)
  | synced (data : Draft)
  deriving DecidableEq

/-- The `onUpdate` handler (lines 70-95).  `md` is the external
markdown serializer `editor.storage.markdown.getMarkdown` (an opaque
collaborator, so a parameter of the model); `getText` of the string
document is the document itself, taken after `deleteRange` as in the
source. -/
def onUpdate (md : List Char → String) (data : Draft) (isLoading : Bool)
    (e : EditorSnapshot) : UpdateResult :=
  let lastTwo := textBetween e.doc (e.cursor - 2) e.cursor
  if lastTwo = ['+', '+'] ∧ isLoading = false then
    let doc := deleteRange e.doc (e.cursor - 2) e.cursor
    .triggered doc (mkPrompt data.title data.description (String.mk doc))
  else
    .synced { data with content := some (md e.doc) }

/-! ## Streamed chunk insertion (lines 115-122) and the prev ref -/

/-- The diffs inserted by the chunk-insertion effect across a sequence
of observed completion values, starting from the previously observed
value `prev`: each observation inserts `completion.slice(prev.length)`
and then sets `prev` to the full completion. -/
def insertedDiffs : List Char → List (List Char) → List (List Char)
  | _, [] => []
  | prev, c :: cs => c.drop prev.length :: insertedDiffs c cs

/-- A monotonically growing sequence of observed completion values:
each value extends the previously observed one. -/
def chainFrom : List Char → List (List Char) → Bool
  | _, [] => true
  | prev, c :: cs => (c.take prev.length == prev) && chainFrom c cs

/-- Streaming session events relevant to the `prev` ref: an
observation of the completion value (the effect at lines 118-122),
stream finish (`onFinish`), stream error (`onError`) and cancellation
(`stop()`).  Only the observation effect ever writes `prev.current`. -/
inductive CompletionEvent where
  | observe (completion : List Char)
  | finish
  | error
  | cancel
  deriving DecidableEq

/-- The mutable state around the chunk-insertion effect: the `prev`
ref and the log of texts inserted into the document so far. -/
structure StreamState where
  prev : List Char
  log : List (List Char)
  deriving DecidableEq

/-- One event step: an observation inserts
`completion.slice(prev.current.length)` and updates `prev.current`;
`onFinish` only moves the selection, `onError` only raises a toast,
and `stop()` only aborts the request — none of them touches `prev`. -/
def streamEvent (st : StreamState) : CompletionEvent → StreamState
  | .observe c => ⟨c, st.log ++ [c.drop st.prev.length]⟩
  | .finish => st
  | .error => st
  | .cancel => st

/-- A sequence of stream events applied in order. -/
def runStream (st : StreamState) (es : List CompletionEvent) : StreamState :=
  es.foldl streamEvent st

/-! ## Escape cancellation (lines 124-138) -/

/-- Result of the escape branch: the document and cursor after the
edits, and whether `stop()` was called on the stream. -/
structure CancelResult where
  doc : List Char
  cursor : Nat
  stopped : Bool
  deriving DecidableEq

/-- The escape branch of the cancellation keydown handler:
`stop()`, then `deleteRange(from - completion.length, from)`, then
`insertContent("++")` at the collapsed cursor. -/
def onEscapeKey (e : EditorSnapshot) (completionLen : Nat) : CancelResult :=
  let doc1 := deleteRange e.doc (e.cursor - completionLen) e.cursor
  let c1 := e.cursor - completionLen
  ⟨doc1.take c1 ++ ['+', '+'] ++ doc1.drop c1, c1 + 2, true⟩

/-! ## Hydration (lines 171-177) -/

/-- JS truthiness of a nullable string: null and the empty string are
falsy. -/
def truthy : Option String → Bool
  | some s => s != ""
  | none => false

/-- Local state touched by the hydration effect. -/
structure HydrationState where
  doc : String
  hydrated : Bool
  deriving DecidableEq

/-- One run of the hydration effect: when the editor exists, the
persisted content is truthy and hydration has not happened yet, the
document is replaced by the persisted content and the hydrated flag is
set; otherwise nothing happens. -/
def hydrateStep (editorReady : Bool) (persisted : Option String) (st : HydrationState) :
    HydrationState :=
  if editorReady && truthy persisted && !st.hydrated then
    ⟨persisted.getD "", true⟩
  else st

/-! ## Theorems -/

/-- Taking the first block of a three-block concatenation. -/
theorem take_first_of_three (a b c : List Char) : (a ++ b ++ c).take a.length = a := by
  rw [List.append_assoc]
  exact List.take_left a (b ++ c)

/-- Dropping the first two blocks of a three-block concatenation. -/
theorem drop_two_of_three (a b c : List Char) :
    (a ++ b ++ c).drop (a.length + b.length) = c := by
  rw [← List.length_append]
  exact List.drop_left (a ++ b) c

/-- `textBetween` applied to the middle block of a concatenation. -/
theorem textBetween_middle (a b c : List Char) :
    textBetween (a ++ b ++ c) a.length (a.length + b.length) = b := by
  unfold textBetween
  rw [← List.length_append, List.take_left]
  exact List.drop_left a b

/-- `deleteRange` applied to the middle block of a concatenation. -/
theorem deleteRange_middle (a b c : List Char) :
    deleteRange (a ++ b ++ c) a.length (a.length + b.length) = a ++ c := by
  unfold deleteRange
  rw [take_first_of_three, drop_two_of_three]

/-- C6: `append` adds the value at the end, in-bounds `update` replaces
the element at the index, in-bounds `delete` removes it, and the
["A","B","C"] scenario evaluates as specified.  The embedding is pure:
each operation returns a fresh list (the source copies the array with
`slices.slice()` / spread before writing), so the input list is never
mutated. -/
theorem slide_ops_functional (l : List Slot) (i : Int) (v : String) :
    updateSlides l "add" i v = l ++ [some v]
    ∧ (0 ≤ i → i < (l.length : Int) → updateSlides l "update" i v = l.set i.toNat (some v))
    ∧ (0 ≤ i → i < (l.length : Int) → updateSlides l "delete" i v = l.eraseIdx i.toNat)
    ∧ updateSlides [some "A", some "B", some "C"] "delete" 1 "" = [some "A", some "C"]
    ∧ updateSlides [some "A", some "C"] "update" 0 "Z" = [some "Z", some "C"]
    ∧ updateSlides [some "Z", some "C"] "add" 0 "D" = [some "Z", some "C", some "D"] := by
  refine ⟨rfl, ?_, ?_, by decide, by decide, by decide⟩
  · intro h0 hlt
    show jsSet l i v = _
    have hni : ¬ i < 0 := by omega
    have hn : i.toNat < l.length := by omega
    unfold jsSet
    rw [if_neg hni]
    dsimp only
    rw [if_pos hn]
  · intro h0 hlt
    show jsSpliceDel1 l i = _
    have hni : ¬ i < 0 := by omega
    have hs : spliceStart l.length i = i.toNat := by
      unfold spliceStart
      rw [if_neg hni]
      omega
    unfold jsSpliceDel1
    dsimp only
    rw [hs, List.eraseIdx_eq_take_drop_succ]

/-- Witness for C6 at concrete in-bounds inputs. -/
theorem slide_ops_functional_witness :
    updateSlides [some "A", some "B", some "C"] "update" 1 "Q"
      = [some "A", some "Q", some "C"]
    ∧ updateSlides [some "A", some "B", some "C"] "delete" 1 "Q"
      = [some "A", some "C"] :=
  ⟨(slide_ops_functional [some "A", some "B", some "C"] 1 "Q").2.1 (by decide) (by decide),
   (slide_ops_functional [some "A", some "B", some "C"] 1 "Q").2.2.1 (by decide) (by decide)⟩

/-- C3 counterexample: `delete(-1)` is not a no-op — JS
`splice(-1, 1)` counts from the end and removes the last element. -/
theorem slides_negative_delete_not_noop :
    updateSlides [some "A", some "B", some "C"] "delete" (-1) ""
      ≠ [some "A", some "B", some "C"] := by
  decide

/-- C3 amended: `delete(i)` with `i ≥ length` is a no-op; `delete(i)`
with `i < 0` removes the element at `max (length + i) 0` (so it is not
a no-op on a non-empty list); `update(i, v)` with `i ≥ length` extends
the list to length `i + 1` with holes in the gap; `update(i, v)` with
`i < 0` leaves the element sequence unchanged. -/
theorem slides_out_of_bounds_behavior (l : List Slot) (i : Int) (v : String) :
    ((l.length : Int) ≤ i → updateSlides l "delete" i v = l)
    ∧ (i < 0 → updateSlides l "delete" i v = l.eraseIdx ((l.length : Int) + i).toNat)
    ∧ ((l.length : Int) ≤ i →
        updateSlides l "update" i v = l ++ List.replicate (i.toNat - l.length) none ++ [some v])
    ∧ (i < 0 → updateSlides l "update" i v = l) := by
  refine ⟨?_, ?_, ?_, ?_⟩
  · intro h
    show jsSpliceDel1 l i = _
    have hni : ¬ i < 0 := by omega
    have hs : spliceStart l.length i = l.length := by
      unfold spliceStart
      rw [if_neg hni]
      omega
    unfold jsSpliceDel1
    dsimp only
    rw [hs, List.take_length, List.drop_eq_nil_of_le (by omega), List.append_nil]
  · intro h
    show jsSpliceDel1 l i = _
    have hs : spliceStart l.length i = ((l.length : Int) + i).toNat := by
      unfold spliceStart
      rw [if_pos h]
    unfold jsSpliceDel1
    dsimp only
    rw [hs, List.eraseIdx_eq_take_drop_succ]
  · intro h
    show jsSet l i v = _
    have hni : ¬ i < 0 := by omega
    have hn : ¬ i.toNat < l.length := by omega
    unfold jsSet
    rw [if_neg hni]
    dsimp only
    rw [if_neg hn]
  · intro h
    show jsSet l i v = _
    unfold jsSet
    rw [if_pos h]

/-- Witness for C3 (amended) at concrete out-of-bounds inputs. -/
theorem slides_out_of_bounds_behavior_witness :
    updateSlides [some "A"] "delete" 5 "" = [some "A"]
    ∧ updateSlides [some "A", some "B", some "C"] "delete" (-1) ""
      = [some "A", some "B"]
    ∧ updateSlides [some "A"] "update" 2 "X" = [some "A", none, some "X"]
    ∧ updateSlides [some "A"] "update" (-3) "X" = [some "A"] :=
  ⟨(slides_out_of_bounds_behavior [some "A"] 5 "").1 (by decide),
   (slides_out_of_bounds_behavior [some "A", some "B", some "C"] (-1) "").2.1 (by decide),
   (slides_out_of_bounds_behavior [some "A"] 2 "X").2.2.1 (by decide),
   (slides_out_of_bounds_behavior [some "A"] (-3) "X").2.2.2 (by decide)⟩

/-- C9: after every slide mutation, the draft's serialized slides
field equals the JSON serialization of the in-memory slide list (the
effect at lines 196-198 runs on every change of `slides`). -/
theorem slides_serialization_invariant (st : SlideEditorState) (action : String)
    (i : Int) (v : String) :
    (slideMutationStep st action i v).data.slides
      = some (jsonStringifySlides (slideMutationStep st action i v).slides) := rfl

/-- C5: the autosave effect issues no persistence call when the
debounced draft agrees with the baseline on title, description,
content and slides, and issues one call carrying the full current
draft when any of the four fields differs. -/
theorem autosave_skip_iff_baseline (d p : Draft) :
    ((d.title = p.title ∧ d.description = p.description ∧ d.content = p.content ∧
        d.slides = p.slides) → autosaveCheck d p = none)
    ∧ (¬(d.title = p.title ∧ d.description = p.description ∧ d.content = p.content ∧
        d.slides = p.slides) → autosaveCheck d p = some d) := by
  constructor
  · intro h
    unfold autosaveCheck
    rw [if_pos h]
  · intro h
    unfold autosaveCheck
    rw [if_neg h]

/-- Witness for C5: an unchanged tuple (even with a different
published flag) saves nothing; a changed title saves the full draft. -/
theorem autosave_skip_iff_baseline_witness :
    autosaveCheck ⟨some "t", some "d", some "c", some "s", false⟩
        ⟨some "t", some "d", some "c", some "s", true⟩ = none
    ∧ autosaveCheck ⟨some "t2", some "d", some "c", some "s", false⟩
        ⟨some "t", some "d", some "c", some "s", false⟩
      = some ⟨some "t2", some "d", some "c", some "s", false⟩ :=
  ⟨(autosave_skip_iff_baseline ⟨some "t", some "d", some "c", some "s", false⟩
      ⟨some "t", some "d", some "c", some "s", true⟩).1 (by decide),
   (autosave_skip_iff_baseline ⟨some "t2", some "d", some "c", some "s", false⟩
      ⟨some "t", some "d", some "c", some "s", false⟩).2 (by decide)⟩

/-- C7: meta+S issues a persistence call with the current draft and
suppresses the platform default (`preventDefault`); the handler's
result does not depend on the debounce timer state; and the teardown
cleanup removes exactly the listener the mount added. -/
theorem save_shortcut_immediate :
    (∀ (b : Bool) (d : Draft), onSaveShortcut true "s" b d = some (true, d))
    ∧ (∀ (m : Bool) (k : String) (b b' : Bool) (d : Draft),
        onSaveShortcut m k b d = onSaveShortcut m k b' d)
    ∧ (∀ ls : List String, unmountSaveListener (mountSaveListener ls) = ls) := by
  refine ⟨fun b d => rfl, fun m k b b' d => rfl, fun ls => ?_⟩
  unfold mountSaveListener unmountSaveListener
  exact List.erase_cons_head "save-keydown" ls

/-- The inserted diffs of a monotone observation sequence concatenate,
on top of the starting value, to the last observed value. -/
theorem chain_join_aux : ∀ (cs : List (List Char)) (prev : List Char),
    chainFrom prev cs = true →
    prev ++ (insertedDiffs prev cs).flatten = cs.getLastD prev := by
  intro cs
  induction cs with
  | nil =>
    intro prev _
    simp [insertedDiffs]
  | cons c cs ih =>
    intro prev h
    rw [chainFrom, Bool.and_eq_true, beq_iff_eq] at h
    obtain ⟨h1, h2⟩ := h
    rw [insertedDiffs, List.flatten_cons, ← List.append_assoc]
    have hpc : prev ++ c.drop prev.length = c := by
      conv_rhs => rw [← List.take_append_drop prev.length c]
      rw [h1]
    rw [hpc, List.getLastD_cons prev c cs]
    exact ih c h2

/-- C1: across a monotonically growing sequence of observed completion
values, each observation inserts exactly the newly appended suffix
(completion.slice(prev.length)), and starting from an empty `prev` the
concatenation of all inserted diffs equals the final response text —
no chunk twice, no gap. -/
theorem stream_chunks_insert_exactly_once (cs : List (List Char))
    (h : chainFrom [] cs = true) :
    (insertedDiffs [] cs).flatten = cs.getLastD []
    ∧ ∀ (p c : List Char) (rest : List (List Char)),
        insertedDiffs p (c :: rest) = c.drop p.length :: insertedDiffs c rest := by
  refine ⟨?_, fun p c rest => rfl⟩
  have h0 := chain_join_aux cs [] h
  simpa using h0

/-- Witness for C1 on a concrete three-chunk stream. -/
theorem stream_chunks_insert_exactly_once_witness :
    chainFrom [] [['h'], ['h', 'e'], ['h', 'e', 'y']] = true
    ∧ (insertedDiffs [] [['h'], ['h', 'e'], ['h', 'e', 'y']]).flatten
      = [['h'], ['h', 'e'], ['h', 'e', 'y']].getLastD [] :=
  ⟨by decide, (stream_chunks_insert_exactly_once [['h'], ['h', 'e'], ['h', 'e', 'y']]
      (by decide)).1⟩

/-- C10: every observation updates `prev` to the full current response
and logs exactly the diff `completion.slice(prev.length)`; finish,
error and cancellation leave the whole stream state (in particular
`prev`) untouched; hence the first observation of a later session is
diffed against the last value observed in any session, not against the
empty string. -/
theorem prev_diff_cursor_never_reset (st : StreamState) (c : List Char)
    (e : CompletionEvent) :
    (streamEvent st (.observe c)).prev = c
    ∧ (e = .finish ∨ e = .error ∨ e = .cancel → streamEvent st e = st)
    ∧ (streamEvent st (.observe c)).log = st.log ++ [c.drop st.prev.length]
    ∧ (runStream st [.finish, .observe c]).log = st.log ++ [c.drop st.prev.length] := by
  refine ⟨rfl, ?_, rfl, rfl⟩
  rintro (rfl | rfl | rfl) <;> rfl

/-- Witness for C10: after a finished session whose last observation
was "hi", the next session's first diff is sliced from length 2. -/
theorem prev_diff_cursor_never_reset_witness :
    (streamEvent ⟨['h', 'i'], []⟩ (.observe ['h', 'i', 'x'])).prev = ['h', 'i', 'x']
    ∧ streamEvent ⟨['h', 'i'], []⟩ .finish = ⟨['h', 'i'], []⟩
    ∧ (runStream ⟨['h', 'i'], []⟩ [.finish, .observe ['h', 'i', 'x']]).log
      = [] ++ [['h', 'i', 'x'].drop 2] :=
  ⟨(prev_diff_cursor_never_reset ⟨['h', 'i'], []⟩ ['h', 'i', 'x'] .finish).1,
   (prev_diff_cursor_never_reset ⟨['h', 'i'], []⟩ ['h', 'i', 'x'] .finish).2.1 (Or.inl rfl),
   (prev_diff_cursor_never_reset ⟨['h', 'i'], []⟩ ['h', 'i', 'x'] .finish).2.2.2⟩

/-- C4: escape pressed mid-stream, with the cursor right after the
`n` characters inserted since the trigger position, deletes exactly
those `n` characters, re-inserts the "++" marker at that position, and
stops the stream. -/
theorem escape_restores_marker (pre ins post : List Char) (st : EditorSnapshot)
    (hdoc : st.doc = pre ++ ins ++ post) (hcur : st.cursor = pre.length + ins.length) :
    onEscapeKey st ins.length = ⟨pre ++ ['+', '+'] ++ post, pre.length + 2, true⟩ := by
  have e3 : deleteRange st.doc (st.cursor - ins.length) st.cursor = pre ++ post := by
    rw [hdoc, hcur, Nat.add_sub_cancel]
    unfold deleteRange
    rw [take_first_of_three, drop_two_of_three]
  show CancelResult.mk
      ((deleteRange st.doc (st.cursor - ins.length) st.cursor).take (st.cursor - ins.length)
        ++ ['+', '+']
        ++ (deleteRange st.doc (st.cursor - ins.length) st.cursor).drop (st.cursor - ins.length))
      (st.cursor - ins.length + 2) true = _
  rw [e3, hcur, Nat.add_sub_cancel, List.take_left, List.drop_left]

/-- Witness for C4: escape after inserting "XYZ" into "ab·c". -/
theorem escape_restores_marker_witness :
    onEscapeKey ⟨['a', 'b', 'X', 'Y', 'Z', 'c'], 5⟩ 3
      = ⟨['a', 'b', '+', '+', 'c'], 4, true⟩ :=
  escape_restores_marker ['a', 'b'] ['X', 'Y', 'Z'] ['c']
    ⟨['a', 'b', 'X', 'Y', 'Z', 'c'], 5⟩ rfl rfl

/-- C2 counterexample: the marker typed while a completion is active
is not a state-preserving no-op — the handler runs the ordinary branch
and updates the draft's content from the document (which now contains
the typed "++"), so the draft changes. -/
theorem marker_while_loading_changes_draft :
    onUpdate (fun l => String.mk l) ⟨some "T", some "D", some "old", none, false⟩ true
        ⟨['a', '+', '+'], 3⟩
      = .synced ⟨some "T", some "D", some "a++", none, false⟩
    ∧ (⟨some "T", some "D", some "a++", none, false⟩ : Draft)
      ≠ ⟨some "T", some "D", some "old", none, false⟩ := by
  refine ⟨rfl, by decide⟩

/-- C2 amended: when the two characters before the cursor are "++" and
no completion is active, exactly those two characters are deleted and
a completion request starts with the prompt built from the title, the
description and the document's plain text; when a completion is
active, the marker is not deleted and no request starts, but the
update is handled as an ordinary edit — the draft's content field is
set to the document's serialized form (so the draft may change). -/
theorem marker_trigger_behavior (md : List Char → String) (data : Draft)
    (pre post : List Char) (st : EditorSnapshot) :
    (st.doc = pre ++ ['+', '+'] ++ post → st.cursor = pre.length + 2 →
      onUpdate md data false st
        = .triggered (pre ++ post)
            (mkPrompt data.title data.description (String.mk (pre ++ post))))
    ∧ onUpdate md data true st = .synced { data with content := some (md st.doc) } := by
  constructor
  · intro hdoc hcur
    have hlt : textBetween st.doc (st.cursor - 2) st.cursor = ['+', '+'] := by
      rw [hdoc, hcur, Nat.add_sub_cancel]
      have h0 := textBetween_middle pre ['+', '+'] post
      simpa using h0
    have d1 : deleteRange st.doc (st.cursor - 2) st.cursor = pre ++ post := by
      rw [hdoc, hcur, Nat.add_sub_cancel]
      have h0 := deleteRange_middle pre ['+', '+'] post
      simpa using h0
    show (if textBetween st.doc (st.cursor - 2) st.cursor = ['+', '+'] ∧ false = false then
        UpdateResult.triggered (deleteRange st.doc (st.cursor - 2) st.cursor)
          (mkPrompt data.title data.description
            (String.mk (deleteRange st.doc (st.cursor - 2) st.cursor)))
      else .synced { data with content := some (md st.doc) }) = _
    rw [if_pos ⟨hlt, rfl⟩, d1]
  · have hneg : ¬ (textBetween st.doc (st.cursor - 2) st.cursor = ['+', '+'] ∧
        true = false) := by
      intro h
      exact Bool.noConfusion h.2
    show (if textBetween st.doc (st.cursor - 2) st.cursor = ['+', '+'] ∧ true = false then
        UpdateResult.triggered (deleteRange st.doc (st.cursor - 2) st.cursor)
          (mkPrompt data.title data.description
            (String.mk (deleteRange st.doc (st.cursor - 2) st.cursor)))
      else .synced { data with content := some (md st.doc) }) = _
    rw [if_neg hneg]

/-- Witness for C2 (amended): triggering on the document "a++". -/
theorem marker_trigger_behavior_witness :
    onUpdate (fun l => String.mk l) ⟨some "T", some "D", some "C", none, false⟩ false
        ⟨['a', '+', '+'], 3⟩
      = .triggered ['a'] (mkPrompt (some "T") (some "D") (String.mk ['a'])) :=
  (marker_trigger_behavior (fun l => String.mk l)
    ⟨some "T", some "D", some "C", none, false⟩ ['a'] []
    ⟨['a', '+', '+'], 3⟩).1 rfl rfl

/-- The hydration effect never changes state once the hydrated flag is
set. -/
theorem hydrateStep_hydrated (r : Bool) (pc : Option String) (d : String) :
    hydrateStep r pc ⟨d, true⟩ = ⟨d, true⟩ := by
  unfold hydrateStep
  simp

/-- C8: with a non-empty persisted content, the first run of the
hydration effect on an unhydrated session populates the document from
it and sets the hydrated flag; after that, no sequence of further runs
of the effect — whatever the persisted content becomes — changes the
local document again. -/
theorem hydrate_exactly_once (c d0 : String) (h : c ≠ "")
    (es : List (Bool × Option String)) :
    hydrateStep true (some c) ⟨d0, false⟩ = ⟨c, true⟩
    ∧ es.foldl (fun st p => hydrateStep p.1 p.2 st) ⟨c, true⟩ = ⟨c, true⟩ := by
  constructor
  · unfold hydrateStep
    simp [truthy, h]
  · induction es with
    | nil => rfl
    | cons p es ih =>
      rw [List.foldl_cons, hydrateStep_hydrated]
      exact ih

/-- Witness for C8: "Hello" hydrates once; a later external change to
"World" does not touch the document. -/
theorem hydrate_exactly_once_witness :
    hydrateStep true (some "Hello") ⟨"", false⟩ = ⟨"Hello", true⟩
    ∧ List.foldl (fun st p => hydrateStep p.1 p.2 st) ⟨"Hello", true⟩
        [(true, some "World")] = ⟨"Hello", true⟩ :=
  hydrate_exactly_once "Hello" "" (by decide) [(true, some "World")]

end BlogTool
